import Mathlib

/-
Verification development for the spotify-scrape crawler.

Shallow embedding of the repository's core components:
  * `Cache`            — cache.py          (redis-backed dedup cache, sentinels b'1'/b'2')
  * `BackoffPolicy`    — backoff_policy.py (full-jitter exponential backoff)
  * `BatchReqBuilder`  — batch_req_builder.py (batch coalescer)
  * `PathQueues`       — path_queues.py    (per-route staging queues with priority flush)
  * `ArtistsWriter`    — artists_writer.py (buffered CSV writer)
  * `Scraper`          — scraper.py        (response dispatch and artist pipeline)
  * `SpotifyClient`    — spotify_client.py (HTTP adapter outcome mapping)

Conventions of the embedding: the async methods of the source are sequential
here (each Python method holds a single lock for its whole body, so its
sequential semantics is exactly the body); redis byte strings b'1'/b'2' are
the Lean strings "1"/"2"; Python floats that carry wait durations and scores
are rationals; Python's `random.uniform(0, b)` is modelled by a sample
parameter `u ∈ [0, 1]` scaled to `u * b`; Python sets that are only
accumulated and then joined are insertion-ordered duplicate-free lists;
Python dicts are association lists (updates keep the key's position,
new keys append).  File and network I/O is replaced by explicit state:
the writer's CSV file is the list of flushed row batches, the fetch result
is passed in as data.
-/

set_option autoImplicit false

namespace SpotifyScrape

/-! ## Cache (cache.py)

`Cache.BATCHED = b'1'`, `Cache.ADDED = b'2'`.  `set` overwrites, `get`
returns the latest value, `exists` tests key presence.  The embedding keeps
the write history as a list whose head is the most recent binding. -/

structure Cache where
  entries : List (String × String)
  deriving DecidableEq

def Cache.BATCHED : String := "1"

def Cache.ADDED : String := "2"

def Cache.get (c : Cache) (key : String) : Option String :=
  (c.entries.find? (fun p => p.1 = key)).map (·.2)

def Cache.set (c : Cache) (key value : String) : Cache :=
  ⟨(key, value) :: c.entries⟩

def Cache.keyExists (c : Cache) (key : String) : Bool :=
  (c.get key).isSome

/-! ## BackoffPolicy (backoff_policy.py)

Fields `_cap = 1800`, `_base = 1`, `_attempts`, `_retry_after`.
`get_backoff` draws `uniform(0, min(cap, base * 2 ** (attempts-1)))`;
the draw is modelled by a sample `u ∈ [0,1]` times the bound. -/

structure BackoffPolicy where
  cap : ℚ
  base : ℚ
  attempts : Nat
  retryAfter : Option ℚ
  deriving DecidableEq

def BackoffPolicy.fresh : BackoffPolicy :=
  { cap := 1800, base := 1, attempts := 0, retryAfter := none }

def BackoffPolicy.incrAttempts (p : BackoffPolicy) : BackoffPolicy :=
  { p with attempts := p.attempts + 1 }

def BackoffPolicy.setRetryAfter (p : BackoffPolicy) (r : ℚ) : BackoffPolicy :=
  match p.retryAfter with
  | none => { p with retryAfter := some r }
  | some r0 => if r < r0 then { p with retryAfter := some r } else p

def BackoffPolicy.getBackoff (p : BackoffPolicy) (u : ℚ) : ℚ :=
  if p.attempts = 0 then 0
  else
    let jitter := u * min p.cap (p.base * 2 ^ (p.attempts - 1))
    match p.retryAfter with
    | some r => min r jitter
    | none => jitter

/-! ## BatchReqBuilder (batch_req_builder.py)

`add` inserts into the pending set unless already present (and bumps
`_num_ids`), `is_full` compares `_num_ids` with the configured size,
`build` snapshots the set, resets it, and returns the comma join.
The Python set is embedded as an insertion-ordered duplicate-free list. -/

structure BatchReqBuilder where
  ids : List String
  numIds : Nat
  size : Nat
  deriving DecidableEq

def BatchReqBuilder.fresh (size : Nat) : BatchReqBuilder :=
  { ids := [], numIds := 0, size := size }

def BatchReqBuilder.add (b : BatchReqBuilder) (eltId : String) : BatchReqBuilder :=
  if eltId ∈ b.ids then b
  else { b with ids := b.ids ++ [eltId], numIds := b.numIds + 1 }

def BatchReqBuilder.isFull (b : BatchReqBuilder) : Bool :=
  b.size ≤ b.numIds

def BatchReqBuilder.build (b : BatchReqBuilder) : String × BatchReqBuilder :=
  (String.intercalate "," b.ids, { b with ids := [], numIds := 0 })

/-- Well-formedness maintained by the coalescer: the counter equals the
number of pending ids and the pending list is duplicate-free. -/
def BatchReqBuilder.WF (b : BatchReqBuilder) : Prop :=
  b.numIds = b.ids.length ∧ b.ids.Nodup

/-! ## Route kinds and endpoints

The nine route kinds are the keys of `STATIC_PATHS` (assembled from the
constants of spotify_client.py, `SpotifyAPIConstants.PATHS`).  An endpoint is
a `{path, params}` dict; `params` is `None` or a query dict, embedded as an
optional association list with stringified values. -/

inductive RouteKind where
  | genre_seeds
  | artists
  | recommendations
  | albums
  | categories
  | category_playlists
  | playlist
  | artist_related_artists
  | search
  deriving DecidableEq

/-- Insertion order of the `STATIC_PATHS` dict (`SpotifyAPIConstants.PATHS`). -/
def staticPathKeys : List RouteKind :=
  [.genre_seeds, .artists, .recommendations, .albums, .categories,
   .category_playlists, .playlist, .artist_related_artists, .search]

structure Endpoint where
  path : String
  params : Option (List (String × String))
  deriving DecidableEq

/-! ## PathQueues (path_queues.py)

One FIFO staging list per route kind, a priority order over the kinds, and a
total size counter.  `put` appends; `set_priority` installs the kinds of the
given score dict sorted by score descending (Python's stable `sorted` with
`reverse=True`, embedded as a stable insertion sort); `flush` visits the
kinds in priority order taking `min(remaining budget, queue length)` from
the head of each queue (the source `break`s once the budget is exhausted,
which equals continuing with budget 0). -/

structure PathQueues where
  queues : RouteKind → List Endpoint
  priority : List RouteKind
  size : Nat

def PathQueues.fresh : PathQueues :=
  { queues := fun _ => [], priority := staticPathKeys, size := 0 }

def PathQueues.put (pq : PathQueues) (pathKey : RouteKind) (item : Endpoint) : PathQueues :=
  { pq with
    queues := fun k => if k = pathKey then pq.queues pathKey ++ [item] else pq.queues k
    size := pq.size + 1 }

def PathQueues.isEmpty (pq : PathQueues) : Bool :=
  pq.size = 0

/-- Stable descending insertion: a new key goes after every key whose score
is at least as large, matching Python's stable `sorted(..., reverse=True)`. -/
def insertByScore (k : RouteKind) (s : ℚ) : List (RouteKind × ℚ) → List (RouteKind × ℚ)
  | [] => [(k, s)]
  | (k0, s0) :: rest =>
      if s ≤ s0 then (k0, s0) :: insertByScore k s rest
      else (k, s) :: (k0, s0) :: rest

def sortKeysByScoreDesc (scores : List (RouteKind × ℚ)) : List RouteKind :=
  (scores.foldl (fun acc p => insertByScore p.1 p.2 acc) []).map (·.1)

def PathQueues.setPriority (pq : PathQueues) (scores : List (RouteKind × ℚ)) : PathQueues :=
  { pq with priority := sortKeysByScoreDesc scores }

def PathQueues.flushGo (qs : RouteKind → List Endpoint) :
    List RouteKind → Nat → List Endpoint × (RouteKind → List Endpoint)
  | [], _ => ([], qs)
  | p :: rest, budget =>
      let n := min budget (qs p).length
      let taken := (qs p).take n
      let qs1 : RouteKind → List Endpoint := fun k => if k = p then (qs p).drop n else qs k
      let out := PathQueues.flushGo qs1 rest (budget - n)
      (taken ++ out.1, out.2)

def PathQueues.flush (pq : PathQueues) (num : Nat) : List Endpoint × PathQueues :=
  let res := PathQueues.flushGo pq.queues pq.priority num
  (res.1, { pq with queues := res.2, size := pq.size - res.1.length })

/-! ## ArtistsWriter (artists_writer.py)

The in-memory buffer `self.artists` is a dict keyed by artist id; `add`
upserts (an existing key keeps its position and gets the new value, a new
key appends) and, when the buffer has reached `_LIMIT = 100` entries,
appends the buffered rows to the CSV file and clears the buffer.  The file
is embedded as the list of flushed batches. -/

structure ArtistRow where
  name : String
  popularity : Int
  genres : List String
  deriving DecidableEq

def updateAssoc (l : List (String × ArtistRow)) (k : String) (v : ArtistRow) :
    List (String × ArtistRow) :=
  match l with
  | [] => [(k, v)]
  | p :: rest => if p.1 = k then (k, v) :: rest else p :: updateAssoc rest k v

structure ArtistsWriter where
  artists : List (String × ArtistRow)
  file : List (List (String × ArtistRow))
  deriving DecidableEq

def ArtistsWriter.fresh : ArtistsWriter :=
  { artists := [], file := [] }

def ArtistsWriter.LIMIT : Nat := 100

def ArtistsWriter.add (w : ArtistsWriter) (id name : String) (popularity : Int)
    (genres : List String) : ArtistsWriter :=
  let buf := updateAssoc w.artists id ⟨name, popularity, genres⟩
  if ArtistsWriter.LIMIT ≤ buf.length then { artists := [], file := w.file ++ [buf] }
  else { w with artists := buf }

/-- All row ids held by the writer, flushed batches first, then the buffer. -/
def ArtistsWriter.rowIds (w : ArtistsWriter) : List String :=
  (w.file.map (List.map Prod.fst)).flatten ++ w.artists.map Prod.fst

/-- Total number of CSV rows held by the writer (flushed plus buffered). -/
def ArtistsWriter.rowCount (w : ArtistsWriter) : Nat :=
  w.rowIds.length

/-! ## SpotifyClient (spotify_client.py)

`fetch` returns `None` on transport failure or `{status, data}`; on a 429 it
copies the `Retry-After` header into `data['retry_after']` **only when the
header is present**.  Only the pieces the dispatch reads are embedded: the
status and the optional `retry_after` entry of the data dict. -/

structure Response where
  status : Nat
  retryAfter : Option ℚ
  deriving DecidableEq

def STATUS_CODES_RATE_LIMITED : Nat := 429

def STATUS_CODES_OLD_ACCESS_TOKEN : Nat := 401

def STATUS_CODES_BAD_OAUTH : Nat := 403

/-- Outcome mapping of `SpotifyClient.fetch` for a completed HTTP exchange:
the data dict carries a `retry_after` key exactly when the response is a 429
bearing a `Retry-After` header. -/
def SpotifyClient.fetchOutcome (status : Nat) (retryAfterHeader : Option ℚ) : Response :=
  { status := status
    retryAfter := if status = STATUS_CODES_RATE_LIMITED then retryAfterHeader else none }

/-! ## Scraper (scraper.py)

State of one `Scraper` instance.  `queue` is `self._queue`, the single
worker queue that seeds and batch/retry reinjections go to (the spec's
primary/secondary); `pathQueues` is the per-route staging; `total` is the
count of artists written; `maxNumArtists` is the configured quota
(`MAX_NUM_ARTISTS`). -/

structure ScraperState where
  cache : Cache
  backoff : BackoffPolicy
  writer : ArtistsWriter
  batch : BatchReqBuilder
  queue : List Endpoint
  pathQueues : PathQueues
  total : Nat
  rateLimitHits : Nat
  maxNumArtists : Nat

def freshScraper (maxNumArtists batchSize : Nat) : ScraperState :=
  { cache := ⟨[]⟩
    backoff := BackoffPolicy.fresh
    writer := ArtistsWriter.fresh
    batch := BatchReqBuilder.fresh batchSize
    queue := []
    pathQueues := PathQueues.fresh
    total := 0
    rateLimitHits := 0
    maxNumArtists := maxNumArtists }

def ScraperState.putStaging (st : ScraperState) (k : RouteKind) (e : Endpoint) : ScraperState :=
  { st with pathQueues := st.pathQueues.put k e }

/-- Response branching at the tail of `Scraper.process_endpoint`.  Returns
the updated state and `some msg` when the handler raises (the exception is
caught and logged by `process_one`, which then only marks the task done).
On a 429 the source reads `res['data']['retry_after']` unconditionally, so
a missing key raises `KeyError` after `rate_limit_hits` was incremented.
A 401 refreshes the token (I/O, outside the state) and requeues; a success
dispatches to `process_valid_endpoint`, modelled separately below. -/
def Scraper.handleResponse (st : ScraperState) (endpoint : Endpoint)
    (res : Option Response) : ScraperState × Option String :=
  match res with
  | none => ({ st with queue := st.queue ++ [endpoint] }, none)
  | some r =>
      if r.status = STATUS_CODES_RATE_LIMITED then
        let st1 := { st with rateLimitHits := st.rateLimitHits + 1 }
        match r.retryAfter with
        | none => (st1, some "KeyError: retry_after")
        | some ra =>
            let st2 := { st1 with backoff := (st1.backoff.setRetryAfter ra).incrAttempts }
            ({ st2 with queue := st2.queue ++ [endpoint] }, none)
      else if r.status = STATUS_CODES_OLD_ACCESS_TOKEN then
        ({ st with queue := st.queue ++ [endpoint] }, none)
      else if r.status = STATUS_CODES_BAD_OAUTH then
        (st, none)
      else
        (st, none)

/-- `Scraper.process_genres`: for each genre not in the cache, stage one
`/recommendations` request (seeded by the genre and, when given, the artist)
and one `/search` request, then mark the genre with `b'1'`. -/
def Scraper.processGenres (st : ScraperState) (artistId : Option String) :
    List String → ScraperState
  | [] => st
  | genre :: rest =>
      if st.cache.keyExists genre then Scraper.processGenres st artistId rest
      else
        let params := [("seed_genres", genre), ("limit", "100")] ++
          (match artistId with
           | some a => [("seed_artists", a)]
           | none => [])
        let st1 := st.putStaging .recommendations ⟨"/recommendations", some params⟩
        let st2 := st1.putStaging .search
          ⟨"/search", some [("q", "genre:" ++ genre), ("type", "artist"), ("limit", "50")]⟩
        let st3 := { st2 with cache := st2.cache.set genre Cache.BATCHED }
        Scraper.processGenres st3 artistId rest

/-- One artist reference of a response payload: `artist.get('id')`,
`artist.get('genres')`, `artist.get('popularity')`, `artist.get('name')`. -/
structure ArtistRef where
  id : Option String
  name : Option String
  popularity : Option Int
  genres : Option (List String)
  deriving DecidableEq

/-- Result of one iteration of the `Scraper.process_artists` loop:
the new state, the deltas to the two counters, and whether the loop
`break`s. -/
structure ArtistStep where
  st : ScraperState
  dAdded : Nat
  dBatched : Nat
  halt : Bool

/-- Body of the `for artist in artists` loop of `Scraper.process_artists`. -/
def Scraper.processOneArtist (st : ScraperState) (artist : ArtistRef) : ArtistStep :=
  if st.maxNumArtists ≤ st.total then ⟨st, 0, 0, true⟩
  else
    match artist.id with
    | none => ⟨st, 0, 0, true⟩
    | some artistId =>
        let cacheVal := st.cache.get artistId
        if cacheVal = some Cache.ADDED then ⟨st, 0, 0, false⟩
        else
          let missingData := artist.genres = none ∨ artist.popularity = none ∨
            artist.name = none
          if missingData ∧ cacheVal = some Cache.BATCHED then ⟨st, 0, 0, false⟩
          else if missingData then
            let st1 := { st with cache := st.cache.set artistId Cache.BATCHED
                                 batch := st.batch.add artistId }
            if st1.batch.isFull then
              let built := st1.batch.build
              let st2 := { st1 with batch := built.2 }
              let st3 := st2.putStaging .artists ⟨"/artists", some [("ids", built.1)]⟩
              ⟨st3, 0, 1, false⟩
            else ⟨st1, 0, 1, false⟩
          else
            let name := artist.name.getD ""
            let popularity := artist.popularity.getD 0
            let genres := artist.genres.getD []
            let st1 := { st with
              writer := st.writer.add artistId name popularity genres
              cache := st.cache.set artistId Cache.ADDED
              total := st.total + 1 }
            if st1.maxNumArtists ≤ st1.total then ⟨st1, 1, 0, true⟩
            else
              let st2 := st1.putStaging .artist_related_artists
                ⟨"/artists/" ++ artistId ++ "/related-artists", none⟩
              let st3 := Scraper.processGenres st2 (some artistId) genres
              ⟨st3, 1, 0, false⟩

def Scraper.processArtistsGo (st : ScraperState) :
    List ArtistRef → Nat × Nat × ScraperState
  | [] => (0, 0, st)
  | artist :: rest =>
      let s := Scraper.processOneArtist st artist
      if s.halt then (s.dAdded, s.dBatched, s.st)
      else
        let r := Scraper.processArtistsGo s.st rest
        (s.dAdded + r.1, s.dBatched + r.2.1, r.2.2)

/-- `Scraper.process_artists`: returns `[added_artists, batched_artists]`
and the final scraper state. -/
def Scraper.processArtists (st : ScraperState) (artists : List ArtistRef) :
    Nat × Nat × ScraperState :=
  Scraper.processArtistsGo st artists

/-! ## Derived predicates used by the statements -/

/-- Lifecycle rank of a cache observation: absent < BATCHED (`b'1'`) <
WRITTEN (`b'2'`, the source's `Cache.ADDED`). -/
def cacheRank (v : Option String) : Nat :=
  if v = some Cache.ADDED then 2 else if v = some Cache.BATCHED then 1 else 0

/-- Every value the crawler ever stores in the cache is `b'1'` or `b'2'`. -/
def Cache.WF (c : Cache) : Prop :=
  ∀ p ∈ c.entries, p.2 = Cache.BATCHED ∨ p.2 = Cache.ADDED

/-- Coupling of the writer and the cache: the CSV rows have pairwise
distinct artist ids, and every id the writer holds is marked `b'2'`. -/
def ScraperState.WriterInv (st : ScraperState) : Prop :=
  st.writer.rowIds.Nodup ∧ ∀ id ∈ st.writer.rowIds, st.cache.get id = some Cache.ADDED

/-- The three complete artist records of the C1 quota scenario. -/
def artistsABC : List ArtistRef :=
  [⟨some "A", some "Alpha", some 50, some []⟩,
   ⟨some "B", some "Beta", some 60, some []⟩,
   ⟨some "C", some "Gamma", some 70, some []⟩]

/-! ## Cache lemmas -/

theorem Cache.get_set_self (c : Cache) (k v : String) : (c.set k v).get k = some v := by
  simp [Cache.get, Cache.set]

theorem Cache.get_set_ne (c : Cache) (k k' v : String) (h : k' ≠ k) :
    (c.set k v).get k' = c.get k' := by
  unfold Cache.get Cache.set
  rw [List.find?_cons_of_neg]
  simp [Ne.symm h]

theorem cacheRank_le_two (v : Option String) : cacheRank v ≤ 2 := by
  unfold cacheRank
  split_ifs <;> omega

theorem cacheRank_eq_two_iff (v : Option String) :
    cacheRank v = 2 ↔ v = some Cache.ADDED := by
  unfold cacheRank
  split_ifs with h1 h2 <;> simp [h1]

theorem cacheRank_none : cacheRank none = 0 := by
  simp [cacheRank, Cache.ADDED, Cache.BATCHED]

/-- Overwriting key `k` with a value of at least its current rank is a rank
increase at every key. -/
theorem cacheRank_set_mono (c : Cache) (k v : String)
    (h : cacheRank (c.get k) ≤ cacheRank (some v)) (k' : String) :
    cacheRank (c.get k') ≤ cacheRank ((c.set k v).get k') := by
  by_cases hk : k' = k
  · subst hk
    rw [Cache.get_set_self]
    exact h
  · rw [Cache.get_set_ne c k k' v hk]

theorem Cache.WF_set (c : Cache) (k v : String) (hc : c.WF)
    (hv : v = Cache.BATCHED ∨ v = Cache.ADDED) : (c.set k v).WF := by
  intro p hp
  simp only [Cache.set] at hp
  rcases List.mem_cons.mp hp with rfl | hp'
  · exact hv
  · exact hc p hp'

/-- A well-formed cache only ever returns absent, `b'1'` or `b'2'`. -/
theorem Cache.WF_get (c : Cache) (hc : c.WF) (k : String) :
    c.get k = none ∨ c.get k = some Cache.BATCHED ∨ c.get k = some Cache.ADDED := by
  unfold Cache.get
  cases hfind : c.entries.find? (fun p => p.1 = k) with
  | none => exact Or.inl rfl
  | some p =>
      rcases hc p (List.mem_of_find?_eq_some hfind) with h | h
      · exact Or.inr (Or.inl (by simp [h]))
      · exact Or.inr (Or.inr (by simp [h]))

/-! ## Association-list and writer lemmas -/

theorem updateAssoc_length_le (l : List (String × ArtistRow)) (k : String) (v : ArtistRow) :
    (updateAssoc l k v).length ≤ l.length + 1 := by
  induction l with
  | nil => simp [updateAssoc]
  | cons p rest ih =>
      by_cases hp : p.1 = k
      · simp [updateAssoc, hp]
      · have hstep : updateAssoc (p :: rest) k v = p :: updateAssoc rest k v := by
          simp [updateAssoc, hp]
        rw [hstep]
        simp only [List.length_cons]
        omega

theorem updateAssoc_keys_of_mem (l : List (String × ArtistRow)) (k : String) (v : ArtistRow)
    (h : k ∈ l.map Prod.fst) :
    (updateAssoc l k v).map Prod.fst = l.map Prod.fst := by
  induction l with
  | nil => simp at h
  | cons p rest ih =>
      by_cases hp : p.1 = k
      · simp [updateAssoc, hp]
      · simp only [List.map_cons] at h
        rcases List.mem_cons.mp h with h' | h'
        · exact absurd h'.symm hp
        · simp [updateAssoc, hp, ih h']

theorem updateAssoc_of_not_mem (l : List (String × ArtistRow)) (k : String) (v : ArtistRow)
    (h : k ∉ l.map Prod.fst) :
    updateAssoc l k v = l ++ [(k, v)] := by
  induction l with
  | nil => simp [updateAssoc]
  | cons p rest ih =>
      simp only [List.map_cons, List.mem_cons, not_or] at h
      have hp : ¬p.1 = k := fun hp => h.1 hp.symm
      simp [updateAssoc, hp, ih h.2]

theorem updateAssoc_find? (l : List (String × ArtistRow)) (k : String) (v : ArtistRow) :
    (updateAssoc l k v).find? (fun p => p.1 = k) = some (k, v) := by
  induction l with
  | nil => simp [updateAssoc]
  | cons p rest ih =>
      by_cases hp : p.1 = k
      · simp [updateAssoc, hp]
      · simpa [updateAssoc, hp] using ih

theorem updateAssoc_keys_nodup (l : List (String × ArtistRow)) (k : String) (v : ArtistRow)
    (h : (l.map Prod.fst).Nodup) :
    ((updateAssoc l k v).map Prod.fst).Nodup := by
  by_cases hm : k ∈ l.map Prod.fst
  · rw [updateAssoc_keys_of_mem l k v hm]
    exact h
  · rw [updateAssoc_of_not_mem l k v hm]
    simp only [List.map_append, List.map_cons, List.map_nil]
    exact List.Nodup.append h (List.nodup_singleton k) (by simpa using hm)

theorem ArtistsWriter.rowCount_eq (w : ArtistsWriter) :
    w.rowCount = (w.file.map List.length).sum + w.artists.length := by
  unfold ArtistsWriter.rowCount ArtistsWriter.rowIds
  rw [List.length_append, List.length_flatten, List.map_map, List.length_map]
  have h : ∀ fs : List (List (String × ArtistRow)),
      (fs.map (List.length ∘ List.map Prod.fst)).sum = (fs.map List.length).sum := by
    intro fs
    induction fs with
    | nil => rfl
    | cons b rest ih => simp [ih]
  rw [h]

theorem ArtistsWriter.rowCount_add_le (w : ArtistsWriter) (id name : String)
    (popularity : Int) (genres : List String) :
    (w.add id name popularity genres).rowCount ≤ w.rowCount + 1 := by
  have hlen := updateAssoc_length_le w.artists id ⟨name, popularity, genres⟩
  simp only [ArtistsWriter.add]
  split_ifs with hfull
  · rw [ArtistsWriter.rowCount_eq, ArtistsWriter.rowCount_eq]
    simp only [List.map_append, List.map_cons, List.map_nil, List.sum_append,
      List.sum_cons, List.sum_nil, List.length_nil]
    omega
  · rw [ArtistsWriter.rowCount_eq, ArtistsWriter.rowCount_eq]
    simp only
    omega

theorem ArtistsWriter.rowIds_add_of_not_mem (w : ArtistsWriter) (id name : String)
    (popularity : Int) (genres : List String) (h : id ∉ w.rowIds) :
    (w.add id name popularity genres).rowIds = w.rowIds ++ [id] := by
  have hbuf : id ∉ w.artists.map Prod.fst := by
    intro hm
    exact h (by simp [ArtistsWriter.rowIds, hm])
  have hupd := updateAssoc_of_not_mem w.artists id ⟨name, popularity, genres⟩ hbuf
  simp only [ArtistsWriter.add]
  split_ifs with hfull
  · simp [ArtistsWriter.rowIds, hupd, List.flatten_append]
  · simp [ArtistsWriter.rowIds, hupd]

/-! ## Scraper state projection lemmas -/

@[simp] theorem putStaging_cache (st : ScraperState) (k : RouteKind) (e : Endpoint) :
    (st.putStaging k e).cache = st.cache := rfl

@[simp] theorem putStaging_total (st : ScraperState) (k : RouteKind) (e : Endpoint) :
    (st.putStaging k e).total = st.total := rfl

@[simp] theorem putStaging_writer (st : ScraperState) (k : RouteKind) (e : Endpoint) :
    (st.putStaging k e).writer = st.writer := rfl

@[simp] theorem putStaging_queue (st : ScraperState) (k : RouteKind) (e : Endpoint) :
    (st.putStaging k e).queue = st.queue := rfl

@[simp] theorem putStaging_batch (st : ScraperState) (k : RouteKind) (e : Endpoint) :
    (st.putStaging k e).batch = st.batch := rfl

@[simp] theorem putStaging_max (st : ScraperState) (k : RouteKind) (e : Endpoint) :
    (st.putStaging k e).maxNumArtists = st.maxNumArtists := rfl

/-! ## process_genres lemmas -/

theorem pg_fields (gs : List String) (st : ScraperState) (aid : Option String) :
    (Scraper.processGenres st aid gs).total = st.total ∧
    (Scraper.processGenres st aid gs).maxNumArtists = st.maxNumArtists ∧
    (Scraper.processGenres st aid gs).writer = st.writer ∧
    (Scraper.processGenres st aid gs).queue = st.queue ∧
    (Scraper.processGenres st aid gs).batch = st.batch := by
  induction gs generalizing st with
  | nil => exact ⟨rfl, rfl, rfl, rfl, rfl⟩
  | cons g rest ih =>
      simp only [Scraper.processGenres]
      split_ifs with h
      · exact ih st
      · exact ih _

/-- `process_genres` only raises cache ranks: it writes `b'1'` and only on
keys that are absent. -/
theorem get_none_of_not_keyExists (c : Cache) (k : String) (h : ¬c.keyExists k = true) :
    c.get k = none := by
  unfold Cache.keyExists at h
  cases hg : c.get k with
  | none => rfl
  | some v => rw [hg] at h; simp at h

theorem pg_rank_mono (gs : List String) (st : ScraperState) (aid : Option String)
    (k : String) :
    cacheRank (st.cache.get k) ≤ cacheRank ((Scraper.processGenres st aid gs).cache.get k) := by
  induction gs generalizing st with
  | nil => exact le_refl _
  | cons g rest ih =>
      simp only [Scraper.processGenres]
      split_ifs with h
      · exact ih st
      · refine le_trans ?_ (ih _)
        have hg : st.cache.get g = none := get_none_of_not_keyExists st.cache g h
        show cacheRank (st.cache.get k) ≤ cacheRank ((st.cache.set g Cache.BATCHED).get k)
        apply cacheRank_set_mono
        rw [hg, cacheRank_none]
        exact Nat.zero_le _

theorem pg_cacheWF (gs : List String) (st : ScraperState) (aid : Option String)
    (hc : st.cache.WF) : (Scraper.processGenres st aid gs).cache.WF := by
  induction gs generalizing st with
  | nil => exact hc
  | cons g rest ih =>
      simp only [Scraper.processGenres]
      split_ifs with h
      · exact ih st hc
      · exact ih _ (Cache.WF_set _ _ _ hc (Or.inl rfl))

/-- `process_genres` stores `b'1'` only on keys that were absent. -/
theorem pg_batched_from_none (gs : List String) (st : ScraperState) (aid : Option String)
    (k : String) (h : (Scraper.processGenres st aid gs).cache.get k = some Cache.BATCHED) :
    st.cache.get k = some Cache.BATCHED ∨ st.cache.get k = none := by
  induction gs generalizing st with
  | nil => exact Or.inl h
  | cons g rest ih =>
      simp only [Scraper.processGenres] at h
      split_ifs at h with hex
      · exact ih st h
      · have h3 : (st.cache.set g Cache.BATCHED).get k = some Cache.BATCHED ∨
            (st.cache.set g Cache.BATCHED).get k = none := ih _ h
        by_cases hk : k = g
        · subst hk
          exact Or.inr (get_none_of_not_keyExists st.cache k hex)
        · rw [Cache.get_set_ne _ _ _ _ hk] at h3
          exact h3

/-- Once a key reads `b'2'` it still reads `b'2'` after `process_genres`. -/
theorem pg_preserves_added (gs : List String) (st : ScraperState) (aid : Option String)
    (k : String) (h : st.cache.get k = some Cache.ADDED) :
    (Scraper.processGenres st aid gs).cache.get k = some Cache.ADDED := by
  have hm := pg_rank_mono gs st aid k
  rw [h] at hm
  have h2 : cacheRank ((Scraper.processGenres st aid gs).cache.get k) = 2 := by
    have := cacheRank_le_two ((Scraper.processGenres st aid gs).cache.get k)
    have hv : cacheRank (some Cache.ADDED) = 2 := by simp [cacheRank]
    omega
  exact (cacheRank_eq_two_iff _).mp h2

@[simp] theorem pg_total (gs : List String) (st : ScraperState) (aid : Option String) :
    (Scraper.processGenres st aid gs).total = st.total := (pg_fields gs st aid).1

@[simp] theorem pg_max (gs : List String) (st : ScraperState) (aid : Option String) :
    (Scraper.processGenres st aid gs).maxNumArtists = st.maxNumArtists :=
  (pg_fields gs st aid).2.1

@[simp] theorem pg_writer (gs : List String) (st : ScraperState) (aid : Option String) :
    (Scraper.processGenres st aid gs).writer = st.writer := (pg_fields gs st aid).2.2.1

@[simp] theorem pg_queue (gs : List String) (st : ScraperState) (aid : Option String) :
    (Scraper.processGenres st aid gs).queue = st.queue := (pg_fields gs st aid).2.2.2.1

@[simp] theorem pg_batch (gs : List String) (st : ScraperState) (aid : Option String) :
    (Scraper.processGenres st aid gs).batch = st.batch := (pg_fields gs st aid).2.2.2.2

theorem cacheRank_eq_zero (v : Option String) (ha : v ≠ some Cache.ADDED)
    (hb : v ≠ some Cache.BATCHED) : cacheRank v = 0 := by
  simp [cacheRank, ha, hb]

/-! ## Artist-pipeline step lemmas -/

theorem step_queue (st : ScraperState) (a : ArtistRef) :
    (Scraper.processOneArtist st a).st.queue = st.queue := by
  cases ha : a.id with
  | none =>
      simp only [Scraper.processOneArtist, ha]
      split_ifs <;> rfl
  | some aid =>
      simp only [Scraper.processOneArtist, ha]
      split_ifs <;> simp [ScraperState.putStaging]

theorem step_max (st : ScraperState) (a : ArtistRef) :
    (Scraper.processOneArtist st a).st.maxNumArtists = st.maxNumArtists := by
  cases ha : a.id with
  | none =>
      simp only [Scraper.processOneArtist, ha]
      split_ifs <;> rfl
  | some aid =>
      simp only [Scraper.processOneArtist, ha]
      split_ifs <;> simp [ScraperState.putStaging]

theorem step_total_le (st : ScraperState) (a : ArtistRef) (h : st.total ≤ st.maxNumArtists) :
    (Scraper.processOneArtist st a).st.total ≤ st.maxNumArtists := by
  cases ha : a.id with
  | none =>
      simp only [Scraper.processOneArtist, ha]
      split_ifs <;> simpa using h
  | some aid =>
      simp only [Scraper.processOneArtist, ha]
      split_ifs with h1 h2 h3 h4 h5 h6 <;>
        simp only [ScraperState.putStaging, pg_total] <;> omega

theorem step_rank_mono (st : ScraperState) (a : ArtistRef) (k : String) :
    cacheRank (st.cache.get k) ≤ cacheRank ((Scraper.processOneArtist st a).st.cache.get k) := by
  cases ha : a.id with
  | none =>
      simp only [Scraper.processOneArtist, ha]
      split_ifs <;> exact le_refl _
  | some aid =>
      simp only [Scraper.processOneArtist, ha]
      split_ifs with h1 h2 h3 h4 h5 h6
      · exact le_refl _
      · exact le_refl _
      · exact le_refl _
      · -- batched, coalescer full
        show cacheRank (st.cache.get k) ≤ cacheRank ((st.cache.set aid Cache.BATCHED).get k)
        apply cacheRank_set_mono
        rw [cacheRank_eq_zero (st.cache.get aid) h2 (fun hv => h3 ⟨h4, hv⟩)]
        exact Nat.zero_le _
      · -- batched, coalescer not yet full
        show cacheRank (st.cache.get k) ≤ cacheRank ((st.cache.set aid Cache.BATCHED).get k)
        apply cacheRank_set_mono
        rw [cacheRank_eq_zero (st.cache.get aid) h2 (fun hv => h3 ⟨h4, hv⟩)]
        exact Nat.zero_le _
      · -- written, quota reached right after
        show cacheRank (st.cache.get k) ≤ cacheRank ((st.cache.set aid Cache.ADDED).get k)
        apply cacheRank_set_mono
        exact le_trans (cacheRank_le_two _) (by simp [cacheRank])
      · -- written, pipeline continues with related-artists and genre expansion
        refine le_trans ?_ (pg_rank_mono _ _ _ k)
        show cacheRank (st.cache.get k) ≤ cacheRank ((st.cache.set aid Cache.ADDED).get k)
        apply cacheRank_set_mono
        exact le_trans (cacheRank_le_two _) (by simp [cacheRank])

theorem step_cacheWF (st : ScraperState) (a : ArtistRef) (hc : st.cache.WF) :
    (Scraper.processOneArtist st a).st.cache.WF := by
  cases ha : a.id with
  | none =>
      simp only [Scraper.processOneArtist, ha]
      split_ifs <;> exact hc
  | some aid =>
      simp only [Scraper.processOneArtist, ha]
      split_ifs with h1 h2 h3 h4 h5 h6
      · exact hc
      · exact hc
      · exact hc
      · exact Cache.WF_set _ _ _ hc (Or.inl rfl)
      · exact Cache.WF_set _ _ _ hc (Or.inl rfl)
      · exact Cache.WF_set _ _ _ hc (Or.inr rfl)
      · exact pg_cacheWF _ _ _ (Cache.WF_set _ _ _ hc (Or.inr rfl))

theorem step_batched_from_none (st : ScraperState) (a : ArtistRef) (k : String)
    (hc : st.cache.WF)
    (h : (Scraper.processOneArtist st a).st.cache.get k = some Cache.BATCHED) :
    st.cache.get k = some Cache.BATCHED ∨ st.cache.get k = none := by
  cases ha : a.id with
  | none =>
      simp only [Scraper.processOneArtist, ha] at h
      split_ifs at h <;> exact Or.inl h
  | some aid =>
      simp only [Scraper.processOneArtist, ha] at h
      split_ifs at h with h1 h2 h3 h4 h5 h6
      · exact Or.inl h
      · exact Or.inl h
      · exact Or.inl h
      · -- batched, coalescer full
        have h' : (st.cache.set aid Cache.BATCHED).get k = some Cache.BATCHED := h
        by_cases hk : k = aid
        · subst hk
          rcases Cache.WF_get st.cache hc k with hg | hg | hg
          · exact Or.inr hg
          · exact Or.inl hg
          · exact absurd hg h2
        · rw [Cache.get_set_ne _ _ _ _ hk] at h'
          exact Or.inl h'
      · -- batched, coalescer not full
        have h' : (st.cache.set aid Cache.BATCHED).get k = some Cache.BATCHED := h
        by_cases hk : k = aid
        · subst hk
          rcases Cache.WF_get st.cache hc k with hg | hg | hg
          · exact Or.inr hg
          · exact Or.inl hg
          · exact absurd hg h2
        · rw [Cache.get_set_ne _ _ _ _ hk] at h'
          exact Or.inl h'
      · -- written, quota halt
        have h' : (st.cache.set aid Cache.ADDED).get k = some Cache.BATCHED := h
        by_cases hk : k = aid
        · subst hk
          rw [Cache.get_set_self] at h'
          exact absurd h' (by simp [Cache.ADDED, Cache.BATCHED])
        · rw [Cache.get_set_ne _ _ _ _ hk] at h'
          exact Or.inl h'
      · -- written, pipeline continues
        have h' := pg_batched_from_none _ _ _ k h
        have h'' : (st.cache.set aid Cache.ADDED).get k = some Cache.BATCHED ∨
            (st.cache.set aid Cache.ADDED).get k = none := h'
        by_cases hk : k = aid
        · subst hk
          rw [Cache.get_set_self] at h''
          rcases h'' with h'' | h'' <;>
            exact absurd h'' (by simp [Cache.ADDED, Cache.BATCHED])
        · rw [Cache.get_set_ne _ _ _ _ hk] at h''
          rcases h'' with h'' | h''
          · exact Or.inl h''
          · exact Or.inr h''

theorem step_rowCount (st : ScraperState) (a : ArtistRef)
    (h : st.writer.rowCount ≤ st.total) :
    (Scraper.processOneArtist st a).st.writer.rowCount ≤
      (Scraper.processOneArtist st a).st.total := by
  cases ha : a.id with
  | none =>
      simp only [Scraper.processOneArtist, ha]
      split_ifs <;> exact h
  | some aid =>
      simp only [Scraper.processOneArtist, ha]
      split_ifs with h1 h2 h3 h4 h5 h6 <;>
        simp only [ScraperState.putStaging, pg_writer, pg_total] <;>
        try exact h
      all_goals {
        have hadd := ArtistsWriter.rowCount_add_le st.writer aid (a.name.getD "")
          (a.popularity.getD 0) (a.genres.getD [])
        omega }

/-- Marking `b'1'` on a key not yet written keeps the writer/cache coupling. -/
theorem writerInv_batched_aux (st : ScraperState) (aid : String)
    (h2 : ¬st.cache.get aid = some Cache.ADDED) (hw : st.WriterInv) :
    st.writer.rowIds.Nodup ∧
      ∀ id ∈ st.writer.rowIds, (st.cache.set aid Cache.BATCHED).get id = some Cache.ADDED := by
  refine ⟨hw.1, fun id hid => ?_⟩
  by_cases hk : id = aid
  · subst hk
    exact absurd (hw.2 id hid) h2
  · rw [Cache.get_set_ne _ _ _ _ hk]
    exact hw.2 id hid

/-- Writing a row for a not-yet-written id and marking it `b'2'` keeps the
writer/cache coupling. -/
theorem writerInv_written_aux (st : ScraperState) (aid name : String) (pop : Int)
    (genres : List String) (h2 : ¬st.cache.get aid = some Cache.ADDED) (hw : st.WriterInv) :
    (st.writer.add aid name pop genres).rowIds.Nodup ∧
      ∀ id ∈ (st.writer.add aid name pop genres).rowIds,
        (st.cache.set aid Cache.ADDED).get id = some Cache.ADDED := by
  have hnot : aid ∉ st.writer.rowIds := fun hm => h2 (hw.2 aid hm)
  have hids := ArtistsWriter.rowIds_add_of_not_mem st.writer aid name pop genres hnot
  refine ⟨?_, ?_⟩
  · rw [hids]
    exact List.Nodup.append hw.1 (List.nodup_singleton aid) (by simpa using hnot)
  · intro id hid
    rw [hids] at hid
    rcases List.mem_append.mp hid with hid | hid
    · by_cases hk : id = aid
      · subst hk
        rw [Cache.get_set_self]
      · rw [Cache.get_set_ne _ _ _ _ hk]
        exact hw.2 id hid
    · have : id = aid := by simpa using hid
      subst this
      rw [Cache.get_set_self]

theorem step_writerInv (st : ScraperState) (a : ArtistRef) (hw : st.WriterInv) :
    (Scraper.processOneArtist st a).st.WriterInv := by
  cases ha : a.id with
  | none =>
      simp only [Scraper.processOneArtist, ha]
      split_ifs <;> exact hw
  | some aid =>
      simp only [Scraper.processOneArtist, ha]
      split_ifs with h1 h2 h3 h4 h5 h6
      · exact hw
      · exact hw
      · exact hw
      · exact writerInv_batched_aux st aid h2 hw
      · exact writerInv_batched_aux st aid h2 hw
      · exact writerInv_written_aux st aid _ _ _ h2 hw
      · refine ⟨?_, ?_⟩
        · show (Scraper.processGenres _ _ _).writer.rowIds.Nodup
          rw [pg_writer]
          exact (writerInv_written_aux st aid _ _ _ h2 hw).1
        · intro id hid
          rw [pg_writer] at hid
          apply pg_preserves_added
          exact (writerInv_written_aux st aid _ _ _ h2 hw).2 id hid

/-! ## process_artists loop lemmas -/

theorem go_queue (l : List ArtistRef) (st : ScraperState) :
    (Scraper.processArtistsGo st l).2.2.queue = st.queue := by
  induction l generalizing st with
  | nil => rfl
  | cons a rest ih =>
      simp only [Scraper.processArtistsGo]
      by_cases hhalt : (Scraper.processOneArtist st a).halt
      · simp [hhalt, step_queue]
      · simp [hhalt, ih, step_queue]

theorem go_max (l : List ArtistRef) (st : ScraperState) :
    (Scraper.processArtistsGo st l).2.2.maxNumArtists = st.maxNumArtists := by
  induction l generalizing st with
  | nil => rfl
  | cons a rest ih =>
      simp only [Scraper.processArtistsGo]
      by_cases hhalt : (Scraper.processOneArtist st a).halt
      · simp [hhalt, step_max]
      · simp [hhalt, ih, step_max]

theorem go_total_le (l : List ArtistRef) (st : ScraperState)
    (h : st.total ≤ st.maxNumArtists) :
    (Scraper.processArtistsGo st l).2.2.total ≤ st.maxNumArtists := by
  induction l generalizing st with
  | nil => exact h
  | cons a rest ih =>
      simp only [Scraper.processArtistsGo]
      by_cases hhalt : (Scraper.processOneArtist st a).halt
      · simp only [hhalt, if_pos]
        exact step_total_le st a h
      · simp only [hhalt, if_neg, Bool.false_eq_true, not_false_iff]
        have hs : (Scraper.processOneArtist st a).st.total ≤
            (Scraper.processOneArtist st a).st.maxNumArtists := by
          rw [step_max]
          exact step_total_le st a h
        have := ih (Scraper.processOneArtist st a).st hs
        rw [step_max] at this
        exact this

theorem go_rowCount (l : List ArtistRef) (st : ScraperState)
    (h : st.writer.rowCount ≤ st.total) :
    (Scraper.processArtistsGo st l).2.2.writer.rowCount ≤
      (Scraper.processArtistsGo st l).2.2.total := by
  induction l generalizing st with
  | nil => exact h
  | cons a rest ih =>
      simp only [Scraper.processArtistsGo]
      by_cases hhalt : (Scraper.processOneArtist st a).halt
      · simp only [hhalt, if_pos]
        exact step_rowCount st a h
      · simp only [hhalt, if_neg, Bool.false_eq_true, not_false_iff]
        exact ih (Scraper.processOneArtist st a).st (step_rowCount st a h)

theorem go_rank_mono (l : List ArtistRef) (st : ScraperState) (k : String) :
    cacheRank (st.cache.get k) ≤
      cacheRank ((Scraper.processArtistsGo st l).2.2.cache.get k) := by
  induction l generalizing st with
  | nil => exact le_refl _
  | cons a rest ih =>
      simp only [Scraper.processArtistsGo]
      by_cases hhalt : (Scraper.processOneArtist st a).halt
      · simp only [hhalt, if_pos]
        exact step_rank_mono st a k
      · simp only [hhalt, if_neg, Bool.false_eq_true, not_false_iff]
        exact le_trans (step_rank_mono st a k) (ih (Scraper.processOneArtist st a).st)

theorem go_cacheWF (l : List ArtistRef) (st : ScraperState) (hc : st.cache.WF) :
    (Scraper.processArtistsGo st l).2.2.cache.WF := by
  induction l generalizing st with
  | nil => exact hc
  | cons a rest ih =>
      simp only [Scraper.processArtistsGo]
      by_cases hhalt : (Scraper.processOneArtist st a).halt
      · simp only [hhalt, if_pos]
        exact step_cacheWF st a hc
      · simp only [hhalt, if_neg, Bool.false_eq_true, not_false_iff]
        exact ih (Scraper.processOneArtist st a).st (step_cacheWF st a hc)

theorem go_batched_from_none (l : List ArtistRef) (st : ScraperState) (k : String)
    (hc : st.cache.WF)
    (h : (Scraper.processArtistsGo st l).2.2.cache.get k = some Cache.BATCHED) :
    st.cache.get k = some Cache.BATCHED ∨ st.cache.get k = none := by
  induction l generalizing st with
  | nil => exact Or.inl h
  | cons a rest ih =>
      simp only [Scraper.processArtistsGo] at h
      by_cases hhalt : (Scraper.processOneArtist st a).halt
      · simp only [hhalt, if_pos] at h
        exact step_batched_from_none st a k hc h
      · simp only [hhalt, if_neg, Bool.false_eq_true, not_false_iff] at h
        rcases ih (Scraper.processOneArtist st a).st (step_cacheWF st a hc) h with h' | h'
        · exact step_batched_from_none st a k hc h'
        · -- the step left the key absent, so it was absent (or batched) before:
          -- rank is monotone and a set key is present afterwards
          have hm := step_rank_mono st a k
          rw [h', cacheRank_none] at hm
          rcases Cache.WF_get st.cache hc k with hg | hg | hg
          · exact Or.inr hg
          · exact Or.inl hg
          · rw [hg] at hm
            simp [cacheRank] at hm

theorem go_writerInv (l : List ArtistRef) (st : ScraperState) (hw : st.WriterInv) :
    (Scraper.processArtistsGo st l).2.2.WriterInv := by
  induction l generalizing st with
  | nil => exact hw
  | cons a rest ih =>
      simp only [Scraper.processArtistsGo]
      by_cases hhalt : (Scraper.processOneArtist st a).halt
      · simp only [hhalt, if_pos]
        exact step_writerInv st a hw
      · simp only [hhalt, if_neg, Bool.false_eq_true, not_false_iff]
        exact ih (Scraper.processOneArtist st a).st (step_writerInv st a hw)

theorem go_skip_written (st : ScraperState) (a : ArtistRef) (rest : List ArtistRef)
    (aid : String) (hid : a.id = some aid)
    (hadded : st.cache.get aid = some Cache.ADDED) :
    Scraper.processArtistsGo st (a :: rest) = Scraper.processArtistsGo st rest := by
  by_cases hq : st.maxNumArtists ≤ st.total
  · have hstep : Scraper.processOneArtist st a = ⟨st, 0, 0, true⟩ := by
      simp [Scraper.processOneArtist, hq]
    cases rest with
    | nil => simp [Scraper.processArtistsGo, hstep]
    | cons b t =>
        have hstep2 : Scraper.processOneArtist st b = ⟨st, 0, 0, true⟩ := by
          simp [Scraper.processOneArtist, hq]
        simp [Scraper.processArtistsGo, hstep, hstep2]
  · have hstep : Scraper.processOneArtist st a = ⟨st, 0, 0, false⟩ := by
      simp [Scraper.processOneArtist, hq, hid, hadded]
    simp [Scraper.processArtistsGo, hstep]

theorem go_break_on_missing_id (st : ScraperState) (a : ArtistRef) (rest : List ArtistRef)
    (hid : a.id = none) :
    Scraper.processArtistsGo st (a :: rest) = (0, 0, st) := by
  have hstep : Scraper.processOneArtist st a = ⟨st, 0, 0, true⟩ := by
    by_cases hq : st.maxNumArtists ≤ st.total
    · simp [Scraper.processOneArtist, hq]
    · simp [Scraper.processOneArtist, hq, hid]
  simp [Scraper.processArtistsGo, hstep]

/-- `flush` never pops more endpoints than its budget. -/
theorem flushGo_length_le (ps : List RouteKind) (qs : RouteKind → List Endpoint)
    (budget : Nat) :
    (PathQueues.flushGo qs ps budget).1.length ≤ budget := by
  induction ps generalizing qs budget with
  | nil => simp [PathQueues.flushGo]
  | cons p rest ih =>
      simp only [PathQueues.flushGo]
      rw [List.length_append, List.length_take]
      have hih := ih (fun k => if k = p then (qs p).drop (min budget (qs p).length) else qs k)
        (budget - min budget (qs p).length)
      omega

/-! ## Claim theorems -/

/-- C7: `get_backoff` returns 0 whenever the attempt count is 0; for every
positive attempt count and every sampled jitter it returns a value in
`[0, min(cap, base · 2^(a−1))]` with `base = 1`, and whenever `retry_after`
has been set to some `r ≥ 0` the returned wait never exceeds `r`; in
particular with `a = 3`, `retry_after = 2`, `cap = 10`, `base = 1` the
result lies in `[0, 2]` (instantiated by the witness). -/
theorem C7_backoff_bounds (p : BackoffPolicy) (u : ℚ)
    (hu0 : 0 ≤ u) (hu1 : u ≤ 1) (hcap : 0 ≤ p.cap) (hbase : p.base = 1)
    (hra : ∀ r, p.retryAfter = some r → 0 ≤ r) :
    (p.attempts = 0 → p.getBackoff u = 0) ∧
    (0 < p.attempts →
      0 ≤ p.getBackoff u ∧
      p.getBackoff u ≤ min p.cap (2 ^ (p.attempts - 1)) ∧
      ∀ r, p.retryAfter = some r → p.getBackoff u ≤ r) := by
  constructor
  · intro h0
    simp [BackoffPolicy.getBackoff, h0]
  · intro hpos
    have hne : ¬p.attempts = 0 := by omega
    have hbound : (0 : ℚ) ≤ min p.cap (p.base * 2 ^ (p.attempts - 1)) := by
      refine le_min hcap ?_
      rw [hbase]
      positivity
    have hjle : u * min p.cap (p.base * 2 ^ (p.attempts - 1)) ≤
        min p.cap (p.base * 2 ^ (p.attempts - 1)) :=
      mul_le_of_le_one_left hbound hu1
    have hjnn : 0 ≤ u * min p.cap (p.base * 2 ^ (p.attempts - 1)) :=
      mul_nonneg hu0 hbound
    cases hr : p.retryAfter with
    | none =>
        simp only [BackoffPolicy.getBackoff, if_neg hne, hr]
        rw [hbase, one_mul] at hjle hjnn
        refine ⟨by simpa [hbase] using hjnn, by simpa [hbase] using hjle, ?_⟩
        intro r hrr
        exact absurd hrr (by simp)
    | some r =>
        have hrnn := hra r hr
        simp only [BackoffPolicy.getBackoff, if_neg hne, hr]
        rw [hbase, one_mul] at hjle hjnn
        refine ⟨le_min hrnn (by simpa [hbase] using hjnn), ?_, ?_⟩
        · refine le_trans (min_le_right _ _) ?_
          simpa [hbase] using hjle
        · intro r' hrr
          rw [Option.some.injEq] at hrr
          rw [← hrr]
          exact min_le_left _ _

/-- C7 witness: the literal scenario `a = 3`, `retry_after = 2`, `cap = 10`,
`base = 1` with the jitter sample `u = 1/2` yields a wait in `[0, 2]`. -/
theorem C7_backoff_bounds_witness :
    0 ≤ BackoffPolicy.getBackoff ⟨10, 1, 3, some 2⟩ (1 / 2) ∧
    BackoffPolicy.getBackoff ⟨10, 1, 3, some 2⟩ (1 / 2) ≤ 2 := by
  have hra : ∀ r, (⟨10, 1, 3, some 2⟩ : BackoffPolicy).retryAfter = some r → 0 ≤ r := by
    intro r hr
    rw [show (⟨10, 1, 3, some 2⟩ : BackoffPolicy).retryAfter = some 2 from rfl,
      Option.some.injEq] at hr
    rw [← hr]
    norm_num
  have h := (C7_backoff_bounds ⟨10, 1, 3, some 2⟩ (1 / 2) (by norm_num) (by norm_num)
    (by norm_num) rfl hra).2 (by norm_num)
  exact ⟨h.1, h.2.2 2 rfl⟩

/-- C8: the batch coalescer's `add` is idempotent, `is_full` holds exactly
when the count of distinct pending ids reaches the configured size, `build`
snapshots the pending set, resets it, and returns the comma join (so a build
immediately after a build yields `""` and an added id lands in exactly one
batch); the literal size-3 scenario x, y, x, z behaves as specified. -/
theorem C8_coalescer (b : BatchReqBuilder) (eltId : String) (hwf : b.WF) :
    (eltId ∈ b.ids → b.add eltId = b) ∧
    (b.add eltId).WF ∧
    eltId ∈ (b.add eltId).ids ∧
    (b.isFull = true ↔ b.size ≤ b.ids.length) ∧
    (b.build.1 = String.intercalate "," b.ids ∧ (b.build.2).ids = [] ∧
      (b.build.2).WF ∧ (b.build.2).build.1 = "") ∧
    ((((BatchReqBuilder.fresh 3).add "x").add "y").add "x").isFull = false ∧
    (((((BatchReqBuilder.fresh 3).add "x").add "y").add "x").add "z").isFull = true ∧
    (((((BatchReqBuilder.fresh 3).add "x").add "y").add "x").add "z").build.1 = "x,y,z" ∧
    ((((((BatchReqBuilder.fresh 3).add "x").add "y").add "x").add "z").build.2).build.1
        = "" := by
  refine ⟨?_, ?_, ?_, ?_, ⟨rfl, rfl, ⟨rfl, List.nodup_nil⟩, rfl⟩, rfl, rfl, rfl, rfl⟩
  · intro h
    simp [BatchReqBuilder.add, h]
  · by_cases h : eltId ∈ b.ids
    · simpa [BatchReqBuilder.add, h] using hwf
    · refine ⟨?_, ?_⟩
      · simp [BatchReqBuilder.add, h, hwf.1]
      · simp only [BatchReqBuilder.add, if_neg h]
        exact List.Nodup.append hwf.2 (List.nodup_singleton eltId) (by simpa using h)
  · by_cases h : eltId ∈ b.ids <;> simp [BatchReqBuilder.add, h]
  · rw [show b.isFull = decide (b.size ≤ b.numIds) from rfl]
    rw [hwf.1]
    exact decide_eq_true_iff

/-- C8 witness: the contract instantiated at a fresh size-2 coalescer and the
id "w". -/
theorem C8_coalescer_witness :
    ("w" ∈ (BatchReqBuilder.fresh 2).ids →
      (BatchReqBuilder.fresh 2).add "w" = BatchReqBuilder.fresh 2) ∧
    ((BatchReqBuilder.fresh 2).add "w").WF ∧
    "w" ∈ ((BatchReqBuilder.fresh 2).add "w").ids ∧
    ((BatchReqBuilder.fresh 2).isFull = true ↔
      (BatchReqBuilder.fresh 2).size ≤ (BatchReqBuilder.fresh 2).ids.length) ∧
    ((BatchReqBuilder.fresh 2).build.1 =
        String.intercalate "," (BatchReqBuilder.fresh 2).ids ∧
      ((BatchReqBuilder.fresh 2).build.2).ids = [] ∧
      ((BatchReqBuilder.fresh 2).build.2).WF ∧
      ((BatchReqBuilder.fresh 2).build.2).build.1 = "") ∧
    ((((BatchReqBuilder.fresh 3).add "x").add "y").add "x").isFull = false ∧
    (((((BatchReqBuilder.fresh 3).add "x").add "y").add "x").add "z").isFull = true ∧
    (((((BatchReqBuilder.fresh 3).add "x").add "y").add "x").add "z").build.1 = "x,y,z" ∧
    ((((((BatchReqBuilder.fresh 3).add "x").add "y").add "x").add "z").build.2).build.1
        = "" :=
  C8_coalescer (BatchReqBuilder.fresh 2) "w" ⟨rfl, List.nodup_nil⟩

/-- C10: the CSV writer buffers rows in a mapping keyed by artist id: an
`add` upserts (so the buffer keeps at most one row per id, holding the most
recently supplied values), and the buffer is appended to the file and
cleared exactly when it reaches `LIMIT = 100` entries, so after every `add`
the buffer holds fewer than 100 rows with pairwise distinct ids. -/
theorem C10_writer_buffer (w : ArtistsWriter) (id name : String) (pop : Int)
    (gs : List String) (_hlen : w.artists.length < ArtistsWriter.LIMIT)
    (hnd : (w.artists.map Prod.fst).Nodup) :
    (w.add id name pop gs).artists.length < ArtistsWriter.LIMIT ∧
    ((w.add id name pop gs).artists.map Prod.fst).Nodup ∧
    ((updateAssoc w.artists id ⟨name, pop, gs⟩).length < ArtistsWriter.LIMIT →
      (w.add id name pop gs).artists = updateAssoc w.artists id ⟨name, pop, gs⟩ ∧
      (w.add id name pop gs).file = w.file ∧
      (w.add id name pop gs).artists.find? (fun p => p.1 = id)
          = some (id, ⟨name, pop, gs⟩)) ∧
    ((updateAssoc w.artists id ⟨name, pop, gs⟩).length = ArtistsWriter.LIMIT →
      (w.add id name pop gs).artists = [] ∧
      (w.add id name pop gs).file = w.file ++ [updateAssoc w.artists id ⟨name, pop, gs⟩]) := by
  have hble := updateAssoc_length_le w.artists id ⟨name, pop, gs⟩
  simp only [ArtistsWriter.add]
  split_ifs with hfull
  · refine ⟨?_, List.nodup_nil, ?_, fun _ => ⟨rfl, rfl⟩⟩
    · show 0 < ArtistsWriter.LIMIT
      unfold ArtistsWriter.LIMIT
      omega
    · intro hlt
      exact absurd hlt (by omega)
  · refine ⟨?_, updateAssoc_keys_nodup w.artists id ⟨name, pop, gs⟩ hnd, ?_, ?_⟩
    · show (updateAssoc w.artists id ⟨name, pop, gs⟩).length < ArtistsWriter.LIMIT
      omega
    · intro _
      exact ⟨rfl, rfl, updateAssoc_find? w.artists id ⟨name, pop, gs⟩⟩
    · intro heq
      exact absurd heq (by omega)

/-- C10 witness: adding one row to a fresh writer buffers it without a file
flush and keeps the buffer below the limit. -/
theorem C10_writer_buffer_witness :
    (ArtistsWriter.fresh.add "a" "n" 7 ["g"]).artists.length < ArtistsWriter.LIMIT ∧
    (ArtistsWriter.fresh.add "a" "n" 7 ["g"]).artists.find? (fun p => p.1 = "a")
        = some ("a", ⟨"n", 7, ["g"]⟩) := by
  have h := C10_writer_buffer ArtistsWriter.fresh "a" "n" 7 ["g"] (by decide) (by decide)
  exact ⟨h.1, (h.2.2.1 (by decide)).2.2⟩

/-- C5: evaluating the fetch-cycle response handler on a 429 response whose
data carries no `retry_after` key (the adapter adds one only when the
`Retry-After` header is present): `rate_limit_hits` is incremented, but the
handler then raises `KeyError` on `res['data']['retry_after']`, so the
backoff attempt count stays unchanged and the endpoint is never reinjected
— contradicting the claim that every 429 increments attempts by 1 and
reinjects the endpoint exactly once.  With the header present the claimed
sequence does happen (second half). -/
theorem C5_429_handler_behavior :
    (Scraper.handleResponse (freshScraper 100 50) ⟨"/search", none⟩
        (some (SpotifyClient.fetchOutcome 429 none))).2 = some "KeyError: retry_after" ∧
    (Scraper.handleResponse (freshScraper 100 50) ⟨"/search", none⟩
        (some (SpotifyClient.fetchOutcome 429 none))).1.rateLimitHits = 1 ∧
    (Scraper.handleResponse (freshScraper 100 50) ⟨"/search", none⟩
        (some (SpotifyClient.fetchOutcome 429 none))).1.backoff.attempts = 0 ∧
    (Scraper.handleResponse (freshScraper 100 50) ⟨"/search", none⟩
        (some (SpotifyClient.fetchOutcome 429 none))).1.queue = [] ∧
    (Scraper.handleResponse (freshScraper 100 50) ⟨"/search", none⟩
        (some (SpotifyClient.fetchOutcome 429 (some 7)))).2 = none ∧
    (Scraper.handleResponse (freshScraper 100 50) ⟨"/search", none⟩
        (some (SpotifyClient.fetchOutcome 429 (some 7)))).1.rateLimitHits = 1 ∧
    (Scraper.handleResponse (freshScraper 100 50) ⟨"/search", none⟩
        (some (SpotifyClient.fetchOutcome 429 (some 7)))).1.backoff.attempts = 1 ∧
    (Scraper.handleResponse (freshScraper 100 50) ⟨"/search", none⟩
        (some (SpotifyClient.fetchOutcome 429 (some 7)))).1.backoff.retryAfter = some 7 ∧
    (Scraper.handleResponse (freshScraper 100 50) ⟨"/search", none⟩
        (some (SpotifyClient.fetchOutcome 429 (some 7)))).1.queue = [⟨"/search", none⟩] :=
  ⟨rfl, rfl, rfl, rfl, rfl, rfl, rfl, rfl, rfl⟩

/-- C6 counterexample: a payload whose first artist reference lacks its id,
followed by a complete artist record: the pipeline processes neither — the
complete artist after the malformed one is not discovered, not written and
not cached, contradicting "skips only the offending item and continues". -/
theorem C6_skip_malformed_counterexample :
    (Scraper.processArtists (freshScraper 5 50)
        [⟨none, some "N", some 1, some []⟩, ⟨some "C", some "Gamma", some 70, some []⟩]).1
        = 0 ∧
    (Scraper.processArtists (freshScraper 5 50)
        [⟨none, some "N", some 1, some []⟩, ⟨some "C", some "Gamma", some 70, some []⟩]).2.2.writer.rowIds
        = [] ∧
    (Scraper.processArtists (freshScraper 5 50)
        [⟨none, some "N", some 1, some []⟩, ⟨some "C", some "Gamma", some 70, some []⟩]).2.2.cache.get "C"
        = none :=
  ⟨rfl, rfl, rfl⟩

/-- C6 amended: on the first artist reference whose id is missing, the
pipeline `break`s out of the loop — the whole remainder of the response's
artist list (counters, cache, writer, queues) is left untouched, so artists
listed after the malformed one are *not* discovered in that pass. -/
theorem C6_break_on_malformed (st : ScraperState) (a : ArtistRef)
    (rest : List ArtistRef) (hid : a.id = none) :
    Scraper.processArtists st (a :: rest) = (0, 0, st) :=
  go_break_on_missing_id st a rest hid

/-- C6 witness: the amended break behavior at the concrete malformed input. -/
theorem C6_break_on_malformed_witness :
    Scraper.processArtists (freshScraper 5 50)
        [⟨none, some "N", some 1, some []⟩, ⟨some "C", some "Gamma", some 70, some []⟩]
      = (0, 0, freshScraper 5 50) :=
  C6_break_on_malformed (freshScraper 5 50) ⟨none, some "N", some 1, some []⟩
    [⟨some "C", some "Gamma", some 70, some []⟩] rfl

/-- C4 counterexample: after expanding `{"genres":["rock","jazz"]}` from an
empty cache, the cache value stored for "rock" is the BATCHED sentinel
`b'1'` — not the WRITTEN sentinel `b'2'` (`Cache.ADDED`) the claim names. -/
theorem C4_genre_sentinel_counterexample :
    (Scraper.processGenres (freshScraper 100 50) none ["rock", "jazz"]).cache.get "rock"
        = some Cache.BATCHED ∧
    ¬(Scraper.processGenres (freshScraper 100 50) none ["rock", "jazz"]).cache.get "rock"
        = some Cache.ADDED ∧
    ¬(Scraper.processGenres (freshScraper 100 50) none ["rock", "jazz"]).cache.get "jazz"
        = some Cache.ADDED := by
  refine ⟨rfl, ?_, ?_⟩ <;> decide

/-- C4 amended: processing the genre_seeds payload `["rock","jazz"]` with
neither genre cached stages exactly two `/recommendations` and two `/search`
endpoints (one pair per genre, in payload order) and stores the `b'1'`
(BATCHED) sentinel for both genres, which still prevents re-expansion:
expanding the same payload again is a no-op. -/
theorem C4_genre_expansion :
    (Scraper.processGenres (freshScraper 100 50) none ["rock", "jazz"]).pathQueues.queues
        RouteKind.recommendations =
      [⟨"/recommendations", some [("seed_genres", "rock"), ("limit", "100")]⟩,
       ⟨"/recommendations", some [("seed_genres", "jazz"), ("limit", "100")]⟩] ∧
    (Scraper.processGenres (freshScraper 100 50) none ["rock", "jazz"]).pathQueues.queues
        RouteKind.search =
      [⟨"/search", some [("q", "genre:rock"), ("type", "artist"), ("limit", "50")]⟩,
       ⟨"/search", some [("q", "genre:jazz"), ("type", "artist"), ("limit", "50")]⟩] ∧
    (Scraper.processGenres (freshScraper 100 50) none ["rock", "jazz"]).cache.get "rock"
        = some Cache.BATCHED ∧
    (Scraper.processGenres (freshScraper 100 50) none ["rock", "jazz"]).cache.get "jazz"
        = some Cache.BATCHED ∧
    Scraper.processGenres (Scraper.processGenres (freshScraper 100 50) none ["rock", "jazz"])
        none ["rock", "jazz"]
      = Scraper.processGenres (freshScraper 100 50) none ["rock", "jazz"] :=
  ⟨rfl, rfl, rfl, rfl, rfl⟩

/-- C3 counterexample: with the coalescer configured at size 1, processing a
single incomplete artist reference fills the coalescer; the resulting bulk
`/artists?ids=…` endpoint lands on the 'artists' per-route staging queue and
the primary worker queue stays empty — the claim that it is placed on the
primary queue (and not on a staging queue) is false. -/
theorem C3_batch_on_primary_counterexample :
    (Scraper.processArtists (freshScraper 5 1) [⟨some "a1", none, none, none⟩]).2.2.queue
        = [] ∧
    (Scraper.processArtists (freshScraper 5 1)
        [⟨some "a1", none, none, none⟩]).2.2.pathQueues.queues RouteKind.artists
        = [⟨"/artists", some [("ids", "a1")]⟩] :=
  ⟨rfl, rfl⟩

/-- C3 amended: the artist pipeline never touches the primary worker queue
(`self._queue`); when the batch coalescer becomes full, the bulk
`/artists?ids=…` detail request is appended to the 'artists' per-route
staging queue via `PathQueues.put`, reaching workers only after a flush
(shown at the concrete one-element batch). -/
theorem C3_batch_to_staging :
    (∀ (st : ScraperState) (artists : List ArtistRef),
       (Scraper.processArtists st artists).2.2.queue = st.queue) ∧
    (Scraper.processArtists (freshScraper 5 1)
        [⟨some "a1", none, none, none⟩]).2.2.pathQueues.queues RouteKind.artists
        = [⟨"/artists", some [("ids", "a1")]⟩] ∧
    (Scraper.processArtists (freshScraper 5 1) [⟨some "a1", none, none, none⟩]).2.1 = 1 :=
  ⟨fun st artists => go_queue artists st, rfl, rfl⟩

/-- C1: the quota invariant: whenever the written-artist counter is within
the quota and the writer holds no more rows than that counter, the same
holds after any `process_artists` call, so `rows_in_csv ≤ max_num_artists`;
and the literal scenario — quota 2, one response with three complete
artists — writes exactly the first two (both marked `b'2'`), while the
third id stays absent from cache and unwritten. -/
theorem C1_quota :
    (∀ (st : ScraperState) (artists : List ArtistRef),
       st.total ≤ st.maxNumArtists → st.writer.rowCount ≤ st.total →
       (Scraper.processArtists st artists).2.2.total ≤ st.maxNumArtists ∧
       (Scraper.processArtists st artists).2.2.writer.rowCount ≤ st.maxNumArtists) ∧
    (Scraper.processArtists (freshScraper 2 50) artistsABC).1 = 2 ∧
    (Scraper.processArtists (freshScraper 2 50) artistsABC).2.2.total = 2 ∧
    (Scraper.processArtists (freshScraper 2 50) artistsABC).2.2.writer.rowIds = ["A", "B"] ∧
    (Scraper.processArtists (freshScraper 2 50) artistsABC).2.2.cache.get "A"
        = some Cache.ADDED ∧
    (Scraper.processArtists (freshScraper 2 50) artistsABC).2.2.cache.get "B"
        = some Cache.ADDED ∧
    (Scraper.processArtists (freshScraper 2 50) artistsABC).2.2.cache.get "C" = none := by
  refine ⟨?_, rfl, rfl, rfl, rfl, rfl, rfl⟩
  intro st artists h1 h2
  simp only [Scraper.processArtists]
  refine ⟨go_total_le artists st h1, ?_⟩
  have hr := go_rowCount artists st h2
  have ht := go_total_le artists st h1
  omega

/-- C1 witness: the quota bound instantiated at the fresh quota-2 scraper
and the three-artist payload. -/
theorem C1_quota_witness :
    (Scraper.processArtists (freshScraper 2 50) artistsABC).2.2.total ≤ 2 ∧
    (Scraper.processArtists (freshScraper 2 50) artistsABC).2.2.writer.rowCount ≤ 2 :=
  C1_quota.1 (freshScraper 2 50) artistsABC (by decide) (by decide)

/-- C2: per-id cache lifecycle: the rank absent < BATCHED < WRITTEN never
decreases across the artist pipeline; a key can become BATCHED only from
absent (so BATCHED happens at most once before WRITTEN); the writer/cache
coupling — pairwise-distinct CSV row ids, each marked `b'2'` — is preserved
(so the CSV holds at most one row per artist id); and an artist whose id is
already `b'2'` is skipped entirely: processing it is the same as processing
the rest of the list. -/
theorem C2_cache_lifecycle (st : ScraperState) (artists : List ArtistRef) (k : String)
    (hwf : st.cache.WF) (hw : st.WriterInv) :
    cacheRank (st.cache.get k) ≤
      cacheRank ((Scraper.processArtists st artists).2.2.cache.get k) ∧
    ((Scraper.processArtists st artists).2.2.cache.get k = some Cache.BATCHED →
      st.cache.get k = some Cache.BATCHED ∨ st.cache.get k = none) ∧
    (Scraper.processArtists st artists).2.2.WriterInv ∧
    (∀ (a : ArtistRef) (rest : List ArtistRef) (aid : String), a.id = some aid →
      st.cache.get aid = some Cache.ADDED →
      Scraper.processArtists st (a :: rest) = Scraper.processArtists st rest) :=
  ⟨go_rank_mono artists st k,
   fun h => go_batched_from_none artists st k hwf h,
   go_writerInv artists st hw,
   fun a rest aid hid hadded => go_skip_written st a rest aid hid hadded⟩

/-- C2 witness: the lifecycle properties instantiated at the fresh quota-2
scraper, the three-artist payload and the key "A". -/
theorem C2_cache_lifecycle_witness :
    cacheRank ((freshScraper 2 50).cache.get "A") ≤
      cacheRank ((Scraper.processArtists (freshScraper 2 50) artistsABC).2.2.cache.get "A") ∧
    (Scraper.processArtists (freshScraper 2 50) artistsABC).2.2.WriterInv :=
  ⟨(C2_cache_lifecycle (freshScraper 2 50) artistsABC "A"
      (fun p hp => absurd hp (List.not_mem_nil p))
      ⟨List.nodup_nil, fun id hid => absurd hid (List.not_mem_nil id)⟩).1,
   (C2_cache_lifecycle (freshScraper 2 50) artistsABC "A"
      (fun p hp => absurd hp (List.not_mem_nil p))
      ⟨List.nodup_nil, fun id hid => absurd hid (List.not_mem_nil id)⟩).2.2.1⟩

/-- C9: `flush(n)` pops at most `n` endpoints, visiting route kinds in the
installed priority order and taking `min(remaining budget, queue length)`
from the head of each route's staging queue; after
`set_priority({A:2, B:1})`, `put(A,x)`, `put(B,y)`, `put(A,z)`, a `flush(2)`
returns `[x, z]` and a subsequent `flush(1)` returns `[y]`. -/
theorem C9_priority_flush :
    (∀ (pq : PathQueues) (num : Nat), (pq.flush num).1.length ≤ num) ∧
    (∀ (A B : RouteKind) (x y z : Endpoint), A ≠ B →
      (((((PathQueues.fresh.setPriority [(A, 2), (B, 1)]).put A x).put B y).put A z).flush
          2).1 = [x, z] ∧
      ((((((PathQueues.fresh.setPriority [(A, 2), (B, 1)]).put A x).put B y).put A z).flush
          2).2.flush 1).1 = [y]) := by
  constructor
  · intro pq num
    exact flushGo_length_le pq.priority pq.queues num
  · intro A B x y z hAB
    have hBA : B ≠ A := Ne.symm hAB
    have hsort : sortKeysByScoreDesc [(A, 2), (B, 1)] = [A, B] := by
      simp [sortKeysByScoreDesc, insertByScore]
    constructor
    · simp [PathQueues.flush, PathQueues.flushGo, PathQueues.put, PathQueues.setPriority,
        PathQueues.fresh, hsort, hAB, hBA]
    · simp [PathQueues.flush, PathQueues.flushGo, PathQueues.put, PathQueues.setPriority,
        PathQueues.fresh, hsort, hAB, hBA]

/-- C9 witness: the flush scenario instantiated at the distinct route kinds
recommendations/search and three concrete endpoints. -/
theorem C9_priority_flush_witness :
    (((((PathQueues.fresh.setPriority
          [(RouteKind.recommendations, 2), (RouteKind.search, 1)]).put
            RouteKind.recommendations ⟨"x", none⟩).put RouteKind.search ⟨"y", none⟩).put
            RouteKind.recommendations ⟨"z", none⟩).flush 2).1
        = [⟨"x", none⟩, ⟨"z", none⟩] ∧
    ((((((PathQueues.fresh.setPriority
          [(RouteKind.recommendations, 2), (RouteKind.search, 1)]).put
            RouteKind.recommendations ⟨"x", none⟩).put RouteKind.search ⟨"y", none⟩).put
            RouteKind.recommendations ⟨"z", none⟩).flush 2).2.flush 1).1
        = [⟨"y", none⟩] :=
  C9_priority_flush.2 RouteKind.recommendations RouteKind.search
    ⟨"x", none⟩ ⟨"y", none⟩ ⟨"z", none⟩ (by decide)

end SpotifyScrape
